import Mathlib

/-!
# Verification of the ClipMaster backend (src/main.py, src/schemas.py)

Shallow embedding of the two endpoints `POST /process` and
`GET /status/{job_id}` together with the in-memory job store
(`_mem_jobs` / `save_job` / `get_job` / `update_job` in src/main.py).

Modelling conventions:
* Wall-clock time (`time.time()`) is passed in as an explicit rational
  parameter `now`; the several `time.time()` calls inside one request
  (creation stamp, elapsed computation, defaults) are all modelled by the
  single `now` of that request, and a trace semantics (`Step`) enforces
  that successive requests observe non-decreasing clocks.
* Real-number arithmetic of the progress formula is done in `ℚ`.
  Python `int(x)` truncates toward zero; the truncated value here is
  `min(95, elapsed/10*90) + 10 ≥ 10 ≥ 0`, so truncation coincides with
  `Int.floor`, which is what the model uses.
* `json.loads` is abstracted: a request carries both the raw `sources`
  form string (for Python truthiness) and the parse outcome
  (`Option PyJson`, `none` = the parser raised).
* Pydantic's lax coercion of the `clip_length` string into the
  `Optional[float]` field `Clip.duration` is modelled by a plain decimal
  numeral parser; a string that is neither `"auto"` nor such a numeral
  makes `Clip(...)` raise a `ValidationError` (an uncaught exception,
  i.e. HTTP 500), modelled as `ApiError.validation`.
* The in-memory store backing (the declared fallback of src/main.py when
  no database is configured) is modelled; the Mongo path satisfies the
  same create/read/update contract per the spec (§4.1).
* A `dict` returned to the client is modelled by a structure; the
  processing-branch response of `status` (src/main.py lines 147-151) has
  no `clips` key, which the model renders as `clips = none` in
  `StatusResponse` (`some l` = key present with list value `l`).
-/

/-! ## Definitions -/

/-- A Python JSON value as produced by `json.loads`. -/
inductive PyJson where
  | jNull
  | jBool (b : Bool)
  | jNum (q : ℚ)
  | jStr (s : String)
  | jArr (elems : List PyJson)
  | jObj (fields : List (String × PyJson))

/-- schemas.Clip: all fields Optional; `duration` is `Optional[float]`. -/
structure Clip where
  caption : Option String
  duration : Option ℚ
  aspect_ratio : Option String
  thumbnail_url : Option String
  download_url : Option String
deriving Repr, DecidableEq

/-- The `status` literal of schemas.Job. -/
inductive JobStatus where
  | queued
  | processing
  | completed
  | failed
deriving Repr, DecidableEq

/-- The `source_type` literal of schemas.Job. -/
inductive SourceType where
  | file
  | links
deriving Repr, DecidableEq

/-- A stored job record: the fields of schemas.Job as dumped by
`Job(...).model_dump()` plus the `created_ts` stamp that `process` merges
in right after `save_job` (so `created_ts = none` models the instant
before that merge, i.e. a record without the key). For the Option-typed
schema fields, `none` models an absent-or-None entry; every record this
app writes sets `clip_length`/`aspect_ratio` to concrete strings. -/
structure JobRec where
  status : JobStatus
  progress : ℤ
  message : Option String
  source_type : SourceType
  original_filename : Option String
  sources : Option (List String)
  clip_length : Option String
  aspect_ratio : Option String
  auto_highlights : Bool
  clips : Option (List Clip)
  error : Option String
  created_ts : Option ℚ
deriving Repr, DecidableEq

/-- The in-memory job store `_mem_jobs`: an association list keyed by the
job id (Python dict with unique keys). -/
abbrev Store := List (String × JobRec)

/-- `get_job` (memory path): `_mem_jobs.get(job_id)`. -/
def get_job : Store → String → Option JobRec
  | [], _ => none
  | (k, v) :: rest, jid => if k = jid then some v else get_job rest jid

/-- `save_job` (memory path): `_mem_jobs[jid] = {**doc, "_id": jid}` with a
fresh id `jid`; the `_id` field is the association key. -/
def save_job (st : Store) (jid : String) (doc : JobRec) : Store :=
  (jid, doc) :: st

/-- `update_job` (memory path): `if job_id in _mem_jobs:
_mem_jobs[job_id].update(updates)` — a partial merge applied only when the
id is present, modelled by a record-transformer for the concrete `$set`
dict of each call site. -/
def update_job : Store → String → (JobRec → JobRec) → Store
  | [], _, _ => []
  | (k, v) :: rest, jid, f =>
      if k = jid then (k, f v) :: update_job rest jid f
      else (k, v) :: update_job rest jid f

/-- Python truthiness of an `Optional[str]` form value: `None` and the
empty string are falsy. -/
def strTruthy : Option String → Bool
  | none => false
  | some s => !(s = "")

/-- Numeric value of a decimal digit character. -/
def digitVal (c : Char) : ℕ := c.toNat - 48

/-- Accumulating decimal read of a digit list. -/
def natOfDigitsAux : ℕ → List Char → ℕ
  | acc, [] => acc
  | acc, c :: cs => natOfDigitsAux (acc * 10 + digitVal c) cs

/-- Value of a decimal digit list. -/
def natOfDigits (cs : List Char) : ℕ := natOfDigitsAux 0 cs

/-- Unsigned decimal numeral: digits, optionally with a fractional part
(`"45"`, `"4.5"`, `".5"`, `"5."`). -/
def parseDecimalCore (cs : List Char) : Option ℚ :=
  let ip := cs.takeWhile (fun c => c.isDigit)
  let rest := cs.dropWhile (fun c => c.isDigit)
  match rest with
  | [] => if ip.isEmpty then none else some (natOfDigits ip : ℚ)
  | '.' :: fp =>
      if fp.all (fun c => c.isDigit) && !(ip.isEmpty && fp.isEmpty) then
        some ((natOfDigits ip : ℚ) + (natOfDigits fp : ℚ) / (10 : ℚ) ^ fp.length)
      else none
  | _ => none

/-- Python `float(s)` on the plain signed decimal numerals that matter for
`clip_length` values (`"45"`, `"-4.5"`, ...); other accepted float
syntaxes (exponents, `inf`/`nan`, surrounding whitespace) are not modelled
and are treated as coercion failures. -/
def parsePyFloat? (s : String) : Option ℚ :=
  match s.toList with
  | '+' :: cs => parseDecimalCore cs
  | '-' :: cs => (parseDecimalCore cs).map Neg.neg
  | cs => parseDecimalCore cs

/-- How a request can fail: an `HTTPException(status_code = code)`, a
pydantic `ValidationError` escaping the handler (HTTP 500), or an
attribute access on a missing record (HTTP 500, unreachable). -/
inductive ApiError where
  | http (code : ℕ)
  | validation
  | internal
deriving Repr, DecidableEq

/-- A `POST /process` request. `file_present`/`file_filename` model the
optional `UploadFile` (an upload object is truthy); `sources` is the raw
form string and `sourcesParsed` the outcome of `json.loads` on it
(`none` = the parser raised). -/
structure ProcessRequest where
  file_present : Bool
  file_filename : Option String
  source_url : Option String
  sources : Option String
  sourcesParsed : Option PyJson
  clip_length : String
  aspect_ratio : String
  auto_highlights : String

/-- `[str(x) for x in parsed if isinstance(x, str)]` — `str` of a `str` is
itself, non-string elements are dropped. -/
def jsonStringElems : List PyJson → List String
  | [] => []
  | PyJson.jStr s :: rest => s :: jsonStringElems rest
  | _ :: rest => jsonStringElems rest

/-- The part of `link_list` coming from the `sources` form field
(src/main.py lines 93-100): only a truthy `sources` string that parses to
a JSON list contributes, and only its string elements; malformed JSON is
swallowed (`except: pass`), leaving the empty list. -/
def sourcesStrings (req : ProcessRequest) : List String :=
  if strTruthy req.sources then
    match req.sourcesParsed with
    | some (PyJson.jArr xs) => jsonStringElems xs
    | _ => []
  else []

/-- `link_list` after lines 93-102: the sources-derived list with
`source_url` appended iff it is truthy and not already a member. -/
def linkList (req : ProcessRequest) : List String :=
  let fromSources := sourcesStrings req
  match req.source_url with
  | some u => if u ≠ "" ∧ ¬ fromSources.contains u then fromSources ++ [u]
              else fromSources
  | none => fromSources

/-- Python `str.lower()` (character-wise lowercasing; the result is only
ever compared against ASCII literals here). -/
def pyLower (s : String) : String :=
  String.mk (s.toList.map Char.toLower)

/-- `str(auto_highlights).lower() in ("true", "1", "yes", "on")`. -/
def parseAutoHighlights (s : String) : Bool :=
  ["true", "1", "yes", "on"].contains (pyLower s)

/-- The `Job(...).model_dump()` document built by `process`
(src/main.py lines 107-121), before the `created_ts` stamp. -/
def newJobDoc (req : ProcessRequest) : JobRec :=
  let srcT : SourceType := if req.file_present then .file else .links
  { status := .queued
    progress := 10
    message := some "Queued for processing"
    source_type := srcT
    original_filename := if req.file_present then req.file_filename else none
    sources := if srcT = .links then some (linkList req) else none
    clip_length := some req.clip_length
    aspect_ratio := some req.aspect_ratio
    auto_highlights := parseAutoHighlights req.auto_highlights
    clips := none
    error := none
    created_ts := none }

/-- `POST /process` (src/main.py lines 83-128). `newId` stands for the
fresh id produced by `save_job` (uuid/ObjectId), `now` for `time.time()`.
Returns the response (`job_id` on success) paired with the store after
the request. -/
def process (st : Store) (req : ProcessRequest) (newId : String) (now : ℚ) :
    Except ApiError String × Store :=
  if ¬ req.file_present ∧ linkList req = [] then
    (Except.error (ApiError.http 400), st)
  else
    let st1 := save_job st newId (newJobDoc req)
    let st2 := update_job st1 newId (fun d => { d with created_ts := some now })
    (Except.ok newId, st2)

/-- `PROCESS_SECONDS = 10`: the fixed simulated processing duration. -/
def PROCESS_SECONDS : ℚ := 10

/-- Python `max(a, b)` on numbers (kept as an explicit comparison so that
it evaluates by kernel reduction). -/
def pymax (a b : ℚ) : ℚ := if a ≤ b then b else a

/-- `elapsed = max(0.0, time.time() - created_ts)` with
`created_ts = float(doc.get('created_ts', time.time()))`, as a function
of the stored creation stamp. -/
def elapsedAt (c : Option ℚ) (now : ℚ) : ℚ :=
  pymax 0 (now - (c.getD now))

/-- The elapsed time computed by the status handler for a record. -/
def elapsedOf (doc : JobRec) (now : ℚ) : ℚ :=
  elapsedAt doc.created_ts now

/-- `pct = int(min(95, (elapsed / PROCESS_SECONDS) * 90) + 10)` — the
argument is at least `10`, so Python's toward-zero truncation is the
floor. -/
def pctOf (elapsed : ℚ) : ℤ :=
  ⌊min 95 (elapsed / PROCESS_SECONDS * 90) + 10⌋

/-- The message stored on each in-window poll. -/
def processingMsgStored : String :=
  "Analyzing scenes, audio and generating captions…"

/-- The message returned to the client on each in-window poll. -/
def processingMsgReturned : String := "Working on your highlights…"

/-- The message stored and returned once the job completes. -/
def completedMsg : String := "All done! Your clips are ready."

/-- Pydantic coercion at
`duration=doc.get('clip_length') if doc.get('clip_length') != 'auto' else 30`:
a missing value stays `None` (`None != 'auto'` and `Optional[float]`
accepts `None`), the literal `"auto"` yields the int `30`, any other
string is coerced by `float(...)`, raising a `ValidationError` when it is
not numeric. -/
def clipLengthDuration (cl : Option String) : Except ApiError (Option ℚ) :=
  match cl with
  | none => Except.ok none
  | some s =>
    if s = "auto" then Except.ok (some 30)
    else
      match parsePyFloat? s with
      | some q => Except.ok (some q)
      | none => Except.error ApiError.validation

/-- The two fixed example clips (src/main.py lines 156-171), given the
first clip's coerced duration and the job's aspect ratio. -/
def exampleClipPair (d1 : Option ℚ) (ar : String) : List Clip :=
  [ { caption := some "Top moment with highest energy"
      duration := d1
      aspect_ratio := some ar
      thumbnail_url := some "https://images.unsplash.com/photo-1504384308090-c894fdcc538d?q=80&w=1280&auto=format&fit=crop"
      download_url := some "https://file-examples.com/storage/fe0e7a8f6e2a6a5ef2d3b5f/2017/04/file_example_MP4_480_1_5MG.mp4" },
    { caption := some "Funny reaction with clean transcript"
      duration := some 20
      aspect_ratio := some ar
      thumbnail_url := some "https://images.unsplash.com/photo-1524253482453-3fed8d2fe12b?q=80&w=1280&auto=format&fit=crop"
      download_url := some "https://file-examples.com/storage/fe0e7a8f6e2a6a5ef2d3b5f/2017/04/file_example_MP4_1280_10MG.mp4" } ]

/-- `example_clips` construction: `ar = doc.get('aspect_ratio', 'auto')`,
then the two `Clip(...).model_dump()` values. -/
def exampleClips (doc : JobRec) : Except ApiError (List Clip) :=
  (clipLengthDuration doc.clip_length).map
    (fun d1 => exampleClipPair d1 (doc.aspect_ratio.getD "auto"))

/-- Python truthiness of `doc.get('clips')`: truthy iff a non-empty list
(the field is `Optional[List[Clip]]`, so the value is `None` or a list). -/
def clipsTruthy : Option (List Clip) → Bool
  | some (_ :: _) => true
  | _ => false

/-- The JSON body answered by `GET /status/{job_id}`. `clips = none`
means the body has no `clips` key at all (the processing-branch dict of
src/main.py lines 147-151); `some l` means the key is present with list
`l`. -/
structure StatusResponse where
  status : JobStatus
  progress : ℤ
  message : String
  clips : Option (List Clip)
deriving Repr, DecidableEq

/-- The partial merge (`$set` dict) written by an in-window poll
(src/main.py lines 142-146). -/
def processingMerge (pct : ℤ) (d : JobRec) : JobRec :=
  { d with status := .processing, progress := pct,
           message := some processingMsgStored }

/-- The partial merge (`$set` dict) written by the completing poll
(src/main.py lines 172-177). -/
def completedMerge (cl : List Clip) (d : JobRec) : JobRec :=
  { d with status := .completed, progress := 100,
           message := some completedMsg, clips := some cl }

/-- `GET /status/{job_id}` (src/main.py lines 131-185), with `now` for
`time.time()`. Returns the response paired with the store after the
request; an `HTTPException` / uncaught exception leaves the store as it
was at the point of the raise. -/
def status (st : Store) (jid : String) (now : ℚ) :
    Except ApiError StatusResponse × Store :=
  match get_job st jid with
  | none => (Except.error (ApiError.http 404), st)
  | some doc =>
    let elapsed := elapsedOf doc now
    if elapsed < PROCESS_SECONDS then
      let pct := pctOf elapsed
      let st1 := update_job st jid (processingMerge pct)
      (Except.ok { status := .processing, progress := pct,
                   message := processingMsgReturned, clips := none }, st1)
    else
      if clipsTruthy doc.clips then
        (Except.ok { status := doc.status, progress := doc.progress,
                     message := doc.message.getD "",
                     clips := some (doc.clips.getD []) }, st)
      else
        match exampleClips doc with
        | Except.error e => (Except.error e, st)
        | Except.ok cl =>
          let st1 := update_job st jid (completedMerge cl)
          match get_job st1 jid with
          | none => (Except.error ApiError.internal, st1)
          | some doc2 =>
            (Except.ok { status := doc2.status, progress := doc2.progress,
                         message := doc2.message.getD "",
                         clips := some (doc2.clips.getD []) }, st1)

/-- `WFClipLength cl`: the job's `clip_length` conforms to the data model
of spec §3 — the literal `"auto"` or a (plain decimal) numeric string, so
that pydantic's coercion into `Clip.duration` cannot raise. -/
def WFClipLength (cl : Option String) : Prop :=
  cl = some "auto" ∨ ∃ s q, cl = some s ∧ parsePyFloat? s = some q

/-- A system state: the job store plus the last observed clock value. -/
structure Sys where
  store : Store
  clock : ℚ

/-- The state at process startup: empty in-memory store. -/
def initSys : Sys := { store := [], clock := 0 }

/-- One client request. `process` steps pick a fresh id (uuid collisions
are excluded); each step observes a clock `now ≥` the previous one. -/
inductive Step : Sys → Sys → Prop where
  | processReq (s : Sys) (req : ProcessRequest) (newId : String) (now : ℚ)
      (hnow : s.clock ≤ now) (hfresh : get_job s.store newId = none) :
      Step s { store := (process s.store req newId now).2, clock := now }
  | statusReq (s : Sys) (jid : String) (now : ℚ) (hnow : s.clock ≤ now) :
      Step s { store := (status s.store jid now).2, clock := now }

/-- States reachable from startup by a sequence of requests. -/
def Reachable (s : Sys) : Prop :=
  Relation.ReflTransGen Step initSys s

/-- The completed-record invariant: once a stored record carries a
non-empty clips list, it is completed with progress 100, exactly two
clips, and a creation stamp at least `PROCESS_SECONDS` before the last
observed clock. -/
def DocInv (clock : ℚ) (doc : JobRec) : Prop :=
  clipsTruthy doc.clips = true →
    doc.status = JobStatus.completed ∧ doc.progress = 100 ∧
    (∃ l, doc.clips = some l ∧ l.length = 2) ∧
    (∃ c, doc.created_ts = some c ∧ c + PROCESS_SECONDS ≤ clock)

/-- All stored records satisfy `DocInv`. -/
def SysInv (s : Sys) : Prop :=
  ∀ jid doc, get_job s.store jid = some doc → DocInv s.clock doc

/-- The record as stored right after a successful `process` request. -/
def storedNewDoc (req : ProcessRequest) (now : ℚ) : JobRec :=
  { newJobDoc req with created_ts := some now }

/-- A links-only create request: `source_url` set, no file, no sources. -/
def demoReq : ProcessRequest :=
  { file_present := false
    file_filename := none
    source_url := some "https://a"
    sources := none
    sourcesParsed := none
    clip_length := "auto"
    aspect_ratio := "auto"
    auto_highlights := "true" }

/-- The record `demoReq` stores at clock 0. -/
def demoDoc : JobRec := storedNewDoc demoReq 0

/-- A one-job store holding `demoDoc` under id "j1". -/
def demoStore : Store := [("j1", demoDoc)]

/-- A create request with a file and a link. -/
def demoReqFile : ProcessRequest :=
  { file_present := true
    file_filename := some "v.mp4"
    source_url := some "https://a"
    sources := none
    sourcesParsed := none
    clip_length := "auto"
    aspect_ratio := "auto"
    auto_highlights := "true" }

/-- A create request supplying no file and no links at all. -/
def demoReqEmpty : ProcessRequest :=
  { file_present := false
    file_filename := none
    source_url := none
    sources := none
    sourcesParsed := none
    clip_length := "auto"
    aspect_ratio := "auto"
    auto_highlights := "true" }

/-- The link list as the claim words it: the string elements of the
parsed sources JSON array (empty when `sources` is absent, malformed, or
not an array), with `source_url` appended at the end only if it is truthy
and not already present. -/
def specLinkList (fromSources : List String) (source_url : Option String) : List String :=
  match source_url with
  | none => fromSources
  | some u => if u ≠ "" ∧ u ∉ fromSources then fromSources ++ [u] else fromSources

/-- A create request with two sources links, the first repeated in
`source_url`. -/
def demoReqAB : ProcessRequest :=
  { file_present := false
    file_filename := none
    source_url := some "https://a"
    sources := some "[\x22https://a\x22,\x22https://b\x22]"
    sourcesParsed := some (PyJson.jArr [PyJson.jStr "https://a", PyJson.jStr "https://b"])
    clip_length := "auto"
    aspect_ratio := "auto"
    auto_highlights := "true" }

/-- A stored job created with `clip_length = "45"`. -/
def demoDoc45 : JobRec :=
  storedNewDoc { demoReq with clip_length := "45" } 0

/-- A one-job store holding `demoDoc45` under id "j45". -/
def demoStore45 : Store := [("j45", demoDoc45)]

/-- A stored job whose clips were materialized by an earlier completing
poll. -/
def demoDocDone : JobRec := completedMerge (exampleClipPair (some 30) "auto") demoDoc

/-- A one-job store holding `demoDocDone` under id "jd". -/
def demoStoreDone : Store := [("jd", demoDocDone)]

/-- The system state right after creating the demo job at clock 0. -/
def demoSys : Sys := { store := (process [] demoReq "j1" 0).2, clock := 0 }

/-- Repeated polling of one job at the given clock values, threading the
store from poll to poll. -/
def pollSeq (st : Store) (jid : String) :
    List ℚ → List (Except ApiError StatusResponse) × Store
  | [] => ([], st)
  | t :: ts =>
    let p := status st jid t
    let rest := pollSeq p.2 jid ts
    (p.1 :: rest.1, rest.2)

/-! ## Lemmas and claims -/

lemma get_job_update (st : Store) (tid jid : String) (f : JobRec → JobRec) :
    get_job (update_job st tid f) jid =
      if tid = jid then (get_job st jid).map f else get_job st jid := by
  induction st with
  | nil => simp [get_job, update_job]
  | cons hd tl ih =>
    obtain ⟨k, v⟩ := hd
    by_cases ht : k = tid
    · subst ht
      by_cases hk : k = jid
      · subst hk
        simp [get_job, update_job, ih]
      · simp [get_job, update_job, hk, ih]
    · by_cases hk : k = jid
      · subst hk
        have htj : ¬ tid = k := fun hh => ht hh.symm
        simp [get_job, update_job, ht, htj, ih]
      · simp [get_job, update_job, ht, hk, ih]

lemma get_job_update_self (st : Store) (jid : String) (f : JobRec → JobRec)
    (doc : JobRec) (h : get_job st jid = some doc) :
    get_job (update_job st jid f) jid = some (f doc) := by
  rw [get_job_update, if_pos rfl, h]
  rfl

lemma get_job_update_other (st : Store) (tid jid : String) (f : JobRec → JobRec)
    (h : tid ≠ jid) :
    get_job (update_job st tid f) jid = get_job st jid := by
  rw [get_job_update, if_neg h]

lemma get_job_save (st : Store) (newId jid : String) (doc : JobRec) :
    get_job (save_job st newId doc) jid =
      if newId = jid then some doc else get_job st jid := by
  simp [save_job, get_job]

lemma pctOf_lower (e : ℚ) (he : 0 ≤ e) : 10 ≤ pctOf e := by
  unfold pctOf PROCESS_SECONDS
  rw [Int.le_floor]
  have h0 : (0:ℚ) ≤ e / 10 * 90 := by positivity
  have hm : (0:ℚ) ≤ min 95 (e / 10 * 90) := le_min (by norm_num) h0
  push_cast
  linarith

lemma pctOf_upper (e : ℚ) (he : e < PROCESS_SECONDS) : pctOf e < 100 := by
  unfold PROCESS_SECONDS at he
  unfold pctOf PROCESS_SECONDS
  rw [Int.floor_lt]
  push_cast
  have heq : e / 10 * 90 = 9 * e := by ring
  rw [heq]
  have hmin : min (95:ℚ) (9 * e) ≤ 9 * e := min_le_right _ _
  linarith

lemma pctOf_mono {a b : ℚ} (h : a ≤ b) : pctOf a ≤ pctOf b := by
  unfold pctOf PROCESS_SECONDS
  apply Int.floor_le_floor
  have h9 : a / 10 * 90 ≤ b / 10 * 90 := by linarith
  have := min_le_min (le_refl (95:ℚ)) h9
  linarith

/-- In-window evaluation: for `0 ≤ e < 10` the `min` is inactive and the
progress is `⌊9 e⌋ + 10`. -/
lemma pctOf_eq_of_lt (e : ℚ) (he : e < PROCESS_SECONDS) :
    pctOf e = ⌊9 * e⌋ + 10 := by
  unfold PROCESS_SECONDS at he
  unfold pctOf PROCESS_SECONDS
  have heq : e / 10 * 90 = 9 * e := by ring
  rw [heq, min_eq_right (by linarith)]
  rw [show ((10:ℚ)) = ((10:ℤ) : ℚ) from by norm_num, Int.floor_add_int]

lemma pymax_eq (a b : ℚ) : pymax a b = max a b := by
  unfold pymax
  by_cases h : a ≤ b
  · rw [if_pos h, max_eq_right h]
  · rw [if_neg h, max_eq_left (le_of_not_le h)]

lemma elapsedOf_nonneg (doc : JobRec) (now : ℚ) : 0 ≤ elapsedOf doc now := by
  unfold elapsedOf elapsedAt
  rw [pymax_eq]
  exact le_max_left _ _

lemma elapsedOf_mono (doc : JobRec) {a b : ℚ} (h : a ≤ b) :
    elapsedOf doc a ≤ elapsedOf doc b := by
  unfold elapsedOf elapsedAt
  rw [pymax_eq, pymax_eq]
  cases hc : doc.created_ts with
  | none => simp
  | some c =>
      simp only [Option.getD]
      exact max_le_max le_rfl (by linarith)

lemma elapsedOf_some (doc : JobRec) (c : ℚ) (now : ℚ) (hc : doc.created_ts = some c) :
    elapsedOf doc now = max 0 (now - c) := by
  unfold elapsedOf elapsedAt
  rw [hc, pymax_eq]
  rfl

lemma elapsedOf_eval (doc : JobRec) (c now : ℚ) (hc : doc.created_ts = some c)
    (h : c ≤ now) : elapsedOf doc now = now - c := by
  rw [elapsedOf_some doc c now hc, max_eq_right (by linarith)]

/-- If a poll is past the deadline then the record carries a creation
stamp at least `PROCESS_SECONDS` in the past (with no stamp, `elapsed`
is `0`). -/
lemma created_of_deadline (doc : JobRec) (now : ℚ)
    (h : ¬ elapsedOf doc now < PROCESS_SECONDS) :
    ∃ c, doc.created_ts = some c ∧ c + PROCESS_SECONDS ≤ now := by
  cases hc : doc.created_ts with
  | none =>
      exfalso
      apply h
      unfold elapsedOf elapsedAt
      rw [hc]
      norm_num [PROCESS_SECONDS, pymax]
  | some c =>
      refine ⟨c, rfl, ?_⟩
      rw [elapsedOf_some doc c now hc] at h
      push_neg at h
      by_contra hcon
      push_neg at hcon
      have h2 : max 0 (now - c) < PROCESS_SECONDS := by
        rcases le_or_lt (now - c) 0 with hle | hlt
        · rw [max_eq_left hle]
          unfold PROCESS_SECONDS
          norm_num
        · rw [max_eq_right hlt.le]
          linarith
      exact absurd h2 (not_lt.mpr h)

lemma status_processing (st : Store) (jid : String) (now : ℚ) (doc : JobRec)
    (hdoc : get_job st jid = some doc)
    (hel : elapsedOf doc now < PROCESS_SECONDS) :
    status st jid now =
      (Except.ok { status := .processing, progress := pctOf (elapsedOf doc now),
                   message := processingMsgReturned, clips := none },
       update_job st jid (processingMerge (pctOf (elapsedOf doc now)))) := by
  unfold status
  rw [hdoc]
  simp only [if_pos hel]

lemma status_completed_cached (st : Store) (jid : String) (now : ℚ) (doc : JobRec)
    (hdoc : get_job st jid = some doc)
    (hel : ¬ elapsedOf doc now < PROCESS_SECONDS)
    (hcl : clipsTruthy doc.clips = true) :
    status st jid now =
      (Except.ok { status := doc.status, progress := doc.progress,
                   message := doc.message.getD "",
                   clips := some (doc.clips.getD []) }, st) := by
  unfold status
  rw [hdoc]
  simp only [if_neg hel, hcl, if_pos]

lemma status_completed_fresh (st : Store) (jid : String) (now : ℚ) (doc : JobRec)
    (cl : List Clip)
    (hdoc : get_job st jid = some doc)
    (hel : ¬ elapsedOf doc now < PROCESS_SECONDS)
    (hcl : clipsTruthy doc.clips = false)
    (hex : exampleClips doc = Except.ok cl) :
    status st jid now =
      (Except.ok { status := .completed, progress := 100,
                   message := completedMsg, clips := some cl },
       update_job st jid (completedMerge cl)) := by
  unfold status
  rw [hdoc]
  simp only [if_neg hel, hcl, Bool.false_eq_true, if_false, hex]
  have hre : get_job (update_job st jid (completedMerge cl)) jid
      = some (completedMerge cl doc) := get_job_update_self st jid _ doc hdoc
  rw [hre]
  rfl

lemma status_not_found (st : Store) (jid : String) (now : ℚ)
    (h : get_job st jid = none) :
    status st jid now = (Except.error (ApiError.http 404), st) := by
  unfold status
  rw [h]

lemma clipLengthDuration_wf (cl : Option String) (h : WFClipLength cl) :
    ∃ d, clipLengthDuration cl = Except.ok d := by
  rcases h with h | ⟨s, q, hs, hq⟩
  · subst h
    exact ⟨some 30, rfl⟩
  · subst hs
    by_cases ha : s = "auto"
    · exact ⟨some 30, by simp [clipLengthDuration, ha]⟩
    · exact ⟨some q, by simp [clipLengthDuration, ha, hq]⟩

lemma exampleClips_wf (doc : JobRec) (h : WFClipLength doc.clip_length) :
    ∃ cl, exampleClips doc = Except.ok cl ∧ cl.length = 2 := by
  obtain ⟨d, hd⟩ := clipLengthDuration_wf doc.clip_length h
  refine ⟨exampleClipPair d (doc.aspect_ratio.getD "auto"), ?_, rfl⟩
  unfold exampleClips
  rw [hd]
  rfl

lemma docInv_mono {c c' : ℚ} (h : c ≤ c') {doc : JobRec}
    (hd : DocInv c doc) : DocInv c' doc := by
  intro ht
  obtain ⟨h1, h2, h3, cc, hcc, hle⟩ := hd ht
  exact ⟨h1, h2, h3, cc, hcc, by linarith⟩

lemma sysInv_init : SysInv initSys := by
  intro jid doc h
  simp [initSys, get_job] at h

lemma sysInv_process (s : Sys) (req : ProcessRequest) (newId : String) (now : ℚ)
    (hnow : s.clock ≤ now) (hinv : SysInv s) :
    SysInv { store := (process s.store req newId now).2, clock := now } := by
  intro jid doc hdoc
  unfold process at hdoc
  by_cases hv : ¬ req.file_present ∧ linkList req = []
  · simp only [if_pos hv] at hdoc
    exact docInv_mono hnow (hinv jid doc hdoc)
  · simp only [if_neg hv] at hdoc
    rw [get_job_update] at hdoc
    by_cases hn : newId = jid
    · rw [if_pos hn, get_job_save, if_pos hn] at hdoc
      simp only [Option.map] at hdoc
      obtain rfl := Option.some.inj hdoc
      intro ht
      simp [clipsTruthy, show (newJobDoc req).clips = none from rfl] at ht
    · rw [if_neg hn, get_job_save, if_neg hn] at hdoc
      exact docInv_mono hnow (hinv jid doc hdoc)

lemma sysInv_status (s : Sys) (jid : String) (now : ℚ)
    (hnow : s.clock ≤ now) (hinv : SysInv s) :
    SysInv { store := (status s.store jid now).2, clock := now } := by
  intro jid2 doc2 hdoc2
  cases hdoc : get_job s.store jid with
  | none =>
    rw [status_not_found s.store jid now hdoc] at hdoc2
    exact docInv_mono hnow (hinv jid2 doc2 hdoc2)
  | some doc =>
    by_cases hel : elapsedOf doc now < PROCESS_SECONDS
    · -- in-window poll: only status/progress/message change, clips stay
      have hst : (status s.store jid now).2 =
          update_job s.store jid (processingMerge (pctOf (elapsedOf doc now))) := by
        rw [status_processing s.store jid now doc hdoc hel]
      rw [hst, get_job_update] at hdoc2
      by_cases hj : jid = jid2
      · rw [if_pos hj] at hdoc2
        rw [hj] at hdoc
        rw [hdoc] at hdoc2
        simp only [Option.map] at hdoc2
        obtain rfl := Option.some.inj hdoc2
        intro ht
        -- the merged record has the clips of `doc`; were they truthy, the
        -- invariant would force the poll past the deadline
        have htdoc : clipsTruthy doc.clips = true := by
          simpa [processingMerge] using ht
        obtain ⟨_, _, _, c, hc, hle⟩ := hinv jid2 doc hdoc htdoc
        exfalso
        rw [elapsedOf_some doc c now hc] at hel
        have : now - c < PROCESS_SECONDS := lt_of_le_of_lt (le_max_right _ _) hel
        linarith
      · rw [if_neg hj] at hdoc2
        exact docInv_mono hnow (hinv jid2 doc2 hdoc2)
    · by_cases hcl : clipsTruthy doc.clips = true
      · -- completed, clips cached: store untouched
        rw [status_completed_cached s.store jid now doc hdoc hel hcl] at hdoc2
        exact docInv_mono hnow (hinv jid2 doc2 hdoc2)
      · -- completing poll (or a validation error leaving the store as is)
        rw [Bool.not_eq_true] at hcl
        cases hex : exampleClips doc with
        | error e =>
          have : (status s.store jid now).2 = s.store := by
            unfold status
            rw [hdoc]
            simp only [if_neg hel, hcl, Bool.false_eq_true, if_false, hex]
          rw [this] at hdoc2
          exact docInv_mono hnow (hinv jid2 doc2 hdoc2)
        | ok cl =>
          have hst : (status s.store jid now).2 =
              update_job s.store jid (completedMerge cl) := by
            rw [status_completed_fresh s.store jid now doc cl hdoc hel hcl hex]
          rw [hst, get_job_update] at hdoc2
          by_cases hj : jid = jid2
          · rw [if_pos hj] at hdoc2
            rw [hj] at hdoc
            rw [hdoc] at hdoc2
            simp only [Option.map] at hdoc2
            obtain rfl := Option.some.inj hdoc2
            intro _
            obtain ⟨c, hc, hcle⟩ := created_of_deadline doc now hel
            refine ⟨rfl, rfl, ⟨cl, rfl, ?_⟩, c, hc, hcle⟩
            -- the example list has exactly two clips
            obtain ⟨d, hd⟩ : ∃ d, clipLengthDuration doc.clip_length = Except.ok d := by
              unfold exampleClips at hex
              cases hcd : clipLengthDuration doc.clip_length with
              | error e => rw [hcd] at hex; exact absurd hex (by simp [Except.map])
              | ok d => exact ⟨d, rfl⟩
            unfold exampleClips at hex
            rw [hd] at hex
            simp only [Except.map] at hex
            cases hex
            rfl
          · rw [if_neg hj] at hdoc2
            exact docInv_mono hnow (hinv jid2 doc2 hdoc2)

lemma sysInv_step {s s' : Sys} (hstep : Step s s') (hinv : SysInv s) : SysInv s' := by
  cases hstep with
  | processReq req newId now hnow hfresh => exact sysInv_process s req newId now hnow hinv
  | statusReq jid now hnow => exact sysInv_status s jid now hnow hinv

lemma sysInv_reachable {s : Sys} (h : Reachable s) : SysInv s := by
  unfold Reachable at h
  induction h with
  | refl => exact sysInv_init
  | tail _ hstep ih => exact sysInv_step hstep ih

lemma process_400 (st : Store) (req : ProcessRequest) (newId : String) (now : ℚ)
    (h : ¬ req.file_present = true ∧ linkList req = []) :
    process st req newId now = (Except.error (ApiError.http 400), st) := by
  unfold process
  rw [if_pos]
  exact h

lemma process_ok (st : Store) (req : ProcessRequest) (newId : String) (now : ℚ)
    (h : ¬ (¬ req.file_present = true ∧ linkList req = [])) :
    process st req newId now =
      (Except.ok newId,
       update_job (save_job st newId (newJobDoc req)) newId
         (fun d => { d with created_ts := some now })) := by
  unfold process
  rw [if_neg]
  exact h

lemma process_stored (st : Store) (req : ProcessRequest) (newId : String) (now : ℚ)
    (h : ¬ (¬ req.file_present = true ∧ linkList req = [])) :
    get_job (process st req newId now).2 newId = some (storedNewDoc req now) := by
  rw [process_ok st req newId now h]
  have hs : get_job (save_job st newId (newJobDoc req)) newId = some (newJobDoc req) := by
    rw [get_job_save, if_pos rfl]
  rw [get_job_update_self _ _ _ _ hs]
  rfl

lemma linkList_eq_nil (req : ProcessRequest) :
    linkList req = [] ↔ strTruthy req.source_url = false ∧ sourcesStrings req = [] := by
  cases hu : req.source_url with
  | none =>
    unfold linkList
    rw [hu]
    simp [strTruthy]
  | some u =>
    unfold linkList
    rw [hu]
    show (if u ≠ "" ∧ ¬ (sourcesStrings req).contains u
          then sourcesStrings req ++ [u] else sourcesStrings req) = [] ↔ _
    by_cases he : u = ""
    · subst he
      rw [if_neg (fun h => h.1 rfl)]
      have h1 : strTruthy (some "") = false := rfl
      rw [h1]
      simp
    · have h1 : strTruthy (some u) = true := by
        simp [strTruthy, he]
      rw [h1]
      by_cases hc : (sourcesStrings req).contains u = true
      · -- `u` already a member: the list is returned as is, but then it is
        -- non-empty, matching the non-empty right-hand side
        rw [if_neg (fun h => h.2 hc)]
        constructor
        · intro hnil
          rw [hnil] at hc
          exact absurd hc (by simp [List.contains])
        · rintro ⟨hf, _⟩
          exact absurd hf (by simp)
      · rw [if_pos ⟨he, hc⟩]
        constructor
        · intro hnil
          exact absurd hnil (by simp)
        · rintro ⟨hf, _⟩
          exact absurd hf (by simp)

lemma exampleClips_length (doc : JobRec) (cl : List Clip)
    (hex : exampleClips doc = Except.ok cl) : cl.length = 2 := by
  unfold exampleClips at hex
  cases hcd : clipLengthDuration doc.clip_length with
  | error e =>
    rw [hcd] at hex
    exact absurd hex (by simp [Except.map])
  | ok d =>
    rw [hcd] at hex
    simp only [Except.map] at hex
    cases hex
    rfl

lemma elapsedOf_processingMerge (pct : ℤ) (doc : JobRec) (now : ℚ) :
    elapsedOf (processingMerge pct doc) now = elapsedOf doc now := rfl

/-- C1: every poll of `GET /status/{job_id}` on an existing job with
elapsed time strictly below 10 seconds returns status `processing` and
progress `⌊min 95 (elapsed/10*90) + 10⌋` (`pctOf`), which lies in the
range `[10, 100)`. -/
theorem claim_C1_processing_poll (st : Store) (jid : String) (now : ℚ) (doc : JobRec)
    (hdoc : get_job st jid = some doc)
    (hel : elapsedOf doc now < PROCESS_SECONDS) :
    ∃ st2, status st jid now =
        (Except.ok { status := JobStatus.processing,
                     progress := pctOf (elapsedOf doc now),
                     message := processingMsgReturned, clips := none }, st2) ∧
      10 ≤ pctOf (elapsedOf doc now) ∧ pctOf (elapsedOf doc now) < 100 :=
  ⟨_, status_processing st jid now doc hdoc hel,
    pctOf_lower _ (elapsedOf_nonneg doc now), pctOf_upper _ hel⟩

/-- C1 witness: the demo job polled 2 seconds after creation. -/
theorem claim_C1_processing_poll_witness :
    ∃ st2, status demoStore "j1" 2 =
        (Except.ok { status := JobStatus.processing,
                     progress := pctOf (elapsedOf demoDoc 2),
                     message := processingMsgReturned, clips := none }, st2) ∧
      10 ≤ pctOf (elapsedOf demoDoc 2) ∧ pctOf (elapsedOf demoDoc 2) < 100 :=
  claim_C1_processing_poll demoStore "j1" 2 demoDoc (by decide)
    (by rw [elapsedOf_eval demoDoc 0 2 rfl (by norm_num)]; norm_num [PROCESS_SECONDS])

/-- C9: `GET /status/{job_id}` on an id that resolves to no stored job
fails with HTTP 404 and leaves the store exactly as it was. -/
theorem claim_C9_unknown_job_404 (st : Store) (jid : String) (now : ℚ)
    (h : get_job st jid = none) :
    status st jid now = (Except.error (ApiError.http 404), st) :=
  status_not_found st jid now h

/-- C9 witness: an unknown id polled against the demo store. -/
theorem claim_C9_unknown_job_404_witness :
    status demoStore "missing" 0 = (Except.error (ApiError.http 404), demoStore) :=
  claim_C9_unknown_job_404 demoStore "missing" 0 (by decide)

/-- C10: a create request that supplies a file together with links
(truthy `source_url` and/or string elements in `sources`) stores a job
with `source_type = file` and `sources = None`; the link list is not
recorded anywhere in the stored document. -/
theorem claim_C10_file_discards_links (st : Store) (req : ProcessRequest)
    (newId : String) (now : ℚ) (hfile : req.file_present = true)
    (_hlinks : strTruthy req.source_url = true ∨ sourcesStrings req ≠ []) :
    (process st req newId now).1 = Except.ok newId ∧
    get_job (process st req newId now).2 newId = some (storedNewDoc req now) ∧
    (storedNewDoc req now).source_type = SourceType.file ∧
    (storedNewDoc req now).sources = none := by
  have hok : ¬ (¬ req.file_present = true ∧ linkList req = []) := fun h => h.1 hfile
  refine ⟨by rw [process_ok st req newId now hok], process_stored st req newId now hok, ?_, ?_⟩
  · simp [storedNewDoc, newJobDoc, hfile]
  · simp [storedNewDoc, newJobDoc, hfile]

/-- C10 witness: the demo file-plus-link request. -/
theorem claim_C10_file_discards_links_witness :
    (process [] demoReqFile "j1" 0).1 = Except.ok "j1" ∧
    get_job (process [] demoReqFile "j1" 0).2 "j1" = some (storedNewDoc demoReqFile 0) ∧
    (storedNewDoc demoReqFile 0).source_type = SourceType.file ∧
    (storedNewDoc demoReqFile 0).sources = none :=
  claim_C10_file_discards_links [] demoReqFile "j1" 0 (by decide) (Or.inl (by decide))

/-- C8: a create request with no file, a falsy `source_url` and no string
elements parsed from `sources` is rejected with HTTP 400 and the store is
unchanged (no job is created); a request supplying any of the three
succeeds and returns the new job id, which resolves in the store. -/
theorem claim_C8_validation (st : Store) (req : ProcessRequest) (newId : String) (now : ℚ) :
    (req.file_present = false ∧ strTruthy req.source_url = false ∧ sourcesStrings req = [] →
      process st req newId now = (Except.error (ApiError.http 400), st)) ∧
    (req.file_present = true ∨ strTruthy req.source_url = true ∨ sourcesStrings req ≠ [] →
      (process st req newId now).1 = Except.ok newId ∧
      get_job (process st req newId now).2 newId = some (storedNewDoc req now)) := by
  constructor
  · rintro ⟨hf, hu, hs⟩
    exact process_400 st req newId now ⟨by simp [hf], (linkList_eq_nil req).mpr ⟨hu, hs⟩⟩
  · intro h
    have hok : ¬ (¬ req.file_present = true ∧ linkList req = []) := by
      rintro ⟨hnf, hnil⟩
      obtain ⟨hu, hs⟩ := (linkList_eq_nil req).mp hnil
      rcases h with h | h | h
      · exact hnf h
      · rw [hu] at h
        cases h
      · exact h hs
    exact ⟨by rw [process_ok st req newId now hok], process_stored st req newId now hok⟩

/-- C8 witness: the empty request is rejected; the links-only request
succeeds. -/
theorem claim_C8_validation_witness :
    process [] demoReqEmpty "j1" 0 = (Except.error (ApiError.http 400), []) ∧
    (process [] demoReq "j1" 0).1 = Except.ok "j1" := by
  constructor
  · exact (claim_C8_validation [] demoReqEmpty "j1" 0).1 (by decide)
  · exact ((claim_C8_validation [] demoReq "j1" 0).2 (Or.inr (Or.inl (by decide)))).1

lemma linkList_eq_spec (req : ProcessRequest) :
    linkList req = specLinkList (sourcesStrings req) req.source_url := by
  unfold linkList specLinkList
  cases hu : req.source_url with
  | none => rfl
  | some u =>
    show (if u ≠ "" ∧ ¬ (sourcesStrings req).contains u
          then sourcesStrings req ++ [u] else sourcesStrings req) =
         (if u ≠ "" ∧ u ∉ sourcesStrings req
          then sourcesStrings req ++ [u] else sourcesStrings req)
    have hcm : ((sourcesStrings req).contains u = true) ↔ u ∈ sourcesStrings req :=
      List.elem_iff
    by_cases hm : u ∈ sourcesStrings req
    · rw [if_neg (fun h => h.2 (hcm.mpr hm)), if_neg (fun h => h.2 hm)]
    · by_cases he : u = ""
      · rw [if_neg (fun h => h.1 he), if_neg (fun h => h.1 he)]
      · rw [if_pos ⟨he, fun hc => hm (hcm.mp hc)⟩, if_pos ⟨he, hm⟩]

/-- C6: for a links-only create request the stored `sources` list is the
string elements of the parsed sources JSON (empty on malformed JSON,
without an error) with `source_url` appended only if not already present
(`specLinkList`). -/
theorem claim_C6_link_list (st : Store) (req : ProcessRequest) (newId : String)
    (now : ℚ) (hfile : req.file_present = false) (hll : linkList req ≠ []) :
    (process st req newId now).1 = Except.ok newId ∧
    ∃ doc, get_job (process st req newId now).2 newId = some doc ∧
      doc.sources = some (specLinkList (sourcesStrings req) req.source_url) := by
  have hok : ¬ (¬ req.file_present = true ∧ linkList req = []) := fun h => hll h.2
  refine ⟨by rw [process_ok st req newId now hok], storedNewDoc req now,
    process_stored st req newId now hok, ?_⟩
  rw [← linkList_eq_spec req]
  simp [storedNewDoc, newJobDoc, hfile]

/-- C6 witness: `sources = ["https://a","https://b"]` with
`source_url = "https://a"` stores exactly `["https://a","https://b"]`. -/
theorem claim_C6_link_list_witness :
    ((process [] demoReqAB "j6" 0).1 = Except.ok "j6" ∧
     ∃ doc, get_job (process [] demoReqAB "j6" 0).2 "j6" = some doc ∧
       doc.sources = some (specLinkList (sourcesStrings demoReqAB) demoReqAB.source_url)) ∧
    specLinkList (sourcesStrings demoReqAB) demoReqAB.source_url =
      ["https://a", "https://b"] := by
  refine ⟨claim_C6_link_list [] demoReqAB "j6" 0 (by decide) (by decide), by decide⟩

/-- C7: at the completing poll, a job created with `clip_length = "45"`
gets a first example clip of duration 45, and one created with
`clip_length = "auto"` gets duration 30; the second clip's duration is 20
in both cases. -/
theorem claim_C7_clip_length_duration (st : Store) (jid : String) (now : ℚ)
    (doc : JobRec) (hdoc : get_job st jid = some doc)
    (hel : ¬ elapsedOf doc now < PROCESS_SECONDS)
    (hcl : clipsTruthy doc.clips = false) :
    (doc.clip_length = some "45" →
      ∃ r st2 c1 c2, status st jid now = (Except.ok r, st2) ∧
        r.clips = some [c1, c2] ∧ c1.duration = some 45 ∧ c2.duration = some 20) ∧
    (doc.clip_length = some "auto" →
      ∃ r st2 c1 c2, status st jid now = (Except.ok r, st2) ∧
        r.clips = some [c1, c2] ∧ c1.duration = some 30 ∧ c2.duration = some 20) := by
  constructor
  · intro h45
    have hd : clipLengthDuration doc.clip_length = Except.ok (some 45) := by
      rw [h45]
      rfl
    have hex : exampleClips doc =
        Except.ok (exampleClipPair (some 45) (doc.aspect_ratio.getD "auto")) := by
      unfold exampleClips
      rw [hd]
      rfl
    exact ⟨_, _, _, _, status_completed_fresh st jid now doc _ hdoc hel hcl hex,
      rfl, rfl, rfl⟩
  · intro hauto
    have hd : clipLengthDuration doc.clip_length = Except.ok (some 30) := by
      rw [hauto]
      rfl
    have hex : exampleClips doc =
        Except.ok (exampleClipPair (some 30) (doc.aspect_ratio.getD "auto")) := by
      unfold exampleClips
      rw [hd]
      rfl
    exact ⟨_, _, _, _, status_completed_fresh st jid now doc _ hdoc hel hcl hex,
      rfl, rfl, rfl⟩

/-- C7 witness: the `"45"` job polled 12 seconds after creation (the
`"auto"` case is exercised by the C2 witness's demo job). -/
theorem claim_C7_clip_length_duration_witness :
    ∃ r st2 c1 c2, status demoStore45 "j45" 12 = (Except.ok r, st2) ∧
      r.clips = some [c1, c2] ∧ c1.duration = some 45 ∧ c2.duration = some 20 :=
  (claim_C7_clip_length_duration demoStore45 "j45" 12 demoDoc45 (by decide)
    (by rw [elapsedOf_eval demoDoc45 0 12 rfl (by norm_num)]
        norm_num [PROCESS_SECONDS])
    (by decide)).1 (by decide)

/-- C5: once a stored job carries a non-empty clips list, polls at or
past the deadline leave the store entirely unchanged (no regeneration,
no write) and both polls return exactly the stored clip list. -/
theorem claim_C5_completed_idempotent (st : Store) (jid : String) (doc : JobRec)
    (l : List Clip) (now1 now2 : ℚ)
    (hdoc : get_job st jid = some doc) (hclips : doc.clips = some l) (hne : l ≠ [])
    (h1 : ¬ elapsedOf doc now1 < PROCESS_SECONDS)
    (h2 : ¬ elapsedOf doc now2 < PROCESS_SECONDS) :
    ∃ r1 r2, status st jid now1 = (Except.ok r1, st) ∧
      status st jid now2 = (Except.ok r2, st) ∧
      r1.clips = some l ∧ r2.clips = some l := by
  have ht : clipsTruthy doc.clips = true := by
    rw [hclips]
    cases l with
    | nil => exact absurd rfl hne
    | cons a as => rfl
  refine ⟨_, _, status_completed_cached st jid now1 doc hdoc h1 ht,
    status_completed_cached st jid now2 doc hdoc h2 ht, ?_, ?_⟩ <;>
  · show some (doc.clips.getD []) = some l
    rw [hclips]
    rfl

/-- C5 witness: the completed demo job polled at clocks 12 and 13. -/
theorem claim_C5_completed_idempotent_witness :
    ∃ r1 r2, status demoStoreDone "jd" 12 = (Except.ok r1, demoStoreDone) ∧
      status demoStoreDone "jd" 13 = (Except.ok r2, demoStoreDone) ∧
      r1.clips = some (exampleClipPair (some 30) "auto") ∧
      r2.clips = some (exampleClipPair (some 30) "auto") :=
  claim_C5_completed_idempotent demoStoreDone "jd" demoDocDone
    (exampleClipPair (some 30) "auto") 12 13 (by decide) rfl (by decide)
    (by rw [elapsedOf_eval demoDocDone 0 12 rfl (by norm_num)]
        norm_num [PROCESS_SECONDS])
    (by rw [elapsedOf_eval demoDocDone 0 13 rfl (by norm_num)]
        norm_num [PROCESS_SECONDS])

/-- C4 (amended): a poll before the deadline answers a body carrying
status, integer progress and message but no `clips` key at all
(src/main.py lines 147-151); a poll at or past the deadline (on a job
whose `clip_length` conforms to the data model) answers all four fields,
with a non-empty clips list. -/
theorem claim_C4_response_fields (st : Store) (jid : String) (now : ℚ) (doc : JobRec)
    (hdoc : get_job st jid = some doc) (hwf : WFClipLength doc.clip_length) :
    (elapsedOf doc now < PROCESS_SECONDS →
      ∃ r st2, status st jid now = (Except.ok r, st2) ∧ r.clips = none) ∧
    (¬ elapsedOf doc now < PROCESS_SECONDS →
      ∃ r st2 l, status st jid now = (Except.ok r, st2) ∧ r.clips = some l ∧ l ≠ []) := by
  constructor
  · intro hel
    exact ⟨_, _, status_processing st jid now doc hdoc hel, rfl⟩
  · intro hel
    by_cases hcl : clipsTruthy doc.clips = true
    · cases hc : doc.clips with
      | none =>
        rw [hc] at hcl
        exact absurd hcl (by simp [clipsTruthy])
      | some l0 =>
        cases l0 with
        | nil =>
          rw [hc] at hcl
          exact absurd hcl (by simp [clipsTruthy])
        | cons x xs =>
          refine ⟨_, _, x :: xs,
            status_completed_cached st jid now doc hdoc hel hcl, ?_, by simp⟩
          show some (doc.clips.getD []) = some (x :: xs)
          rw [hc]
          rfl
    · rw [Bool.not_eq_true] at hcl
      obtain ⟨cl, hex, hlen⟩ := exampleClips_wf doc hwf
      refine ⟨_, _, cl, status_completed_fresh st jid now doc cl hdoc hel hcl hex,
        rfl, ?_⟩
      intro hnil
      rw [hnil] at hlen
      exact absurd hlen (by simp)

/-- C4 counterexample: a poll of the demo job before the deadline (clock
0) succeeds but its body has no `clips` key (`clips = none` in the
model), refuting "the response body includes ... clips" for the
processing branch. -/
theorem claim_C4_counterexample :
    ∃ r st2, status demoStore "j1" 0 = (Except.ok r, st2) ∧ r.clips = none := by
  have hel : elapsedOf demoDoc 0 < PROCESS_SECONDS := by
    rw [elapsedOf_eval demoDoc 0 0 rfl le_rfl]
    norm_num [PROCESS_SECONDS]
  exact ⟨_, _, status_processing demoStore "j1" 0 demoDoc (by decide) hel, rfl⟩

/-- C2: on any reachable system state, polling an existing job whose
`clip_length` conforms to the data model at or past the 10-second
deadline answers status `completed`, progress 100 and exactly two clips
(first completing poll materializes them; later polls return the cached
pair via the store invariant). -/
theorem claim_C2_completed_poll (s : Sys) (hr : Reachable s) (jid : String)
    (doc : JobRec) (now : ℚ)
    (hdoc : get_job s.store jid = some doc)
    (hwf : WFClipLength doc.clip_length)
    (hel : ¬ elapsedOf doc now < PROCESS_SECONDS) :
    ∃ r st2 l, status s.store jid now = (Except.ok r, st2) ∧
      r.status = JobStatus.completed ∧ r.progress = 100 ∧
      r.clips = some l ∧ l.length = 2 := by
  by_cases hcl : clipsTruthy doc.clips = true
  · obtain ⟨hcs, hcp, ⟨l, hl, hlen⟩, _⟩ := sysInv_reachable hr jid doc hdoc hcl
    refine ⟨_, _, l, status_completed_cached s.store jid now doc hdoc hel hcl,
      hcs, hcp, ?_, hlen⟩
    show some (doc.clips.getD []) = some l
    rw [hl]
    rfl
  · rw [Bool.not_eq_true] at hcl
    obtain ⟨cl, hex, hlen⟩ := exampleClips_wf doc hwf
    exact ⟨_, _, cl, status_completed_fresh s.store jid now doc cl hdoc hel hcl hex,
      rfl, rfl, rfl, hlen⟩

lemma demoSys_reachable : Reachable demoSys :=
  Relation.ReflTransGen.single (Step.processReq initSys demoReq "j1" 0 le_rfl rfl)

/-- C2 witness: the demo job polled 12 seconds after creation. -/
theorem claim_C2_completed_poll_witness :
    ∃ r st2 l, status demoSys.store "j1" 12 = (Except.ok r, st2) ∧
      r.status = JobStatus.completed ∧ r.progress = 100 ∧
      r.clips = some l ∧ l.length = 2 :=
  claim_C2_completed_poll demoSys demoSys_reachable "j1" demoDoc 12
    (by decide) (Or.inl (by decide))
    (by rw [elapsedOf_eval demoDoc 0 12 rfl (by norm_num)]
        norm_num [PROCESS_SECONDS])

lemma elapsedAt_nonneg (c : Option ℚ) (now : ℚ) : 0 ≤ elapsedAt c now := by
  unfold elapsedAt
  rw [pymax_eq]
  exact le_max_left _ _

lemma elapsedAt_mono (c : Option ℚ) {a b : ℚ} (h : a ≤ b) :
    elapsedAt c a ≤ elapsedAt c b := by
  unfold elapsedAt
  rw [pymax_eq, pymax_eq]
  cases c with
  | none => simp
  | some c0 =>
      simp only [Option.getD]
      exact max_le_max le_rfl (by linarith)

/-- Every poll of a sequence that stays inside the simulated window
answers the processing response whose progress is the pure function
`pctOf ∘ elapsedAt c` of that poll's clock; the in-window store updates
never touch `created_ts`, so the formula is stable across the whole
sequence. -/
lemma pollSeq_processing (jid : String) (c : Option ℚ) :
    ∀ (ts : List ℚ) (st : Store) (doc : JobRec),
      get_job st jid = some doc → doc.created_ts = c →
      (∀ t ∈ ts, elapsedAt c t < PROCESS_SECONDS) →
      (pollSeq st jid ts).1 = ts.map (fun t => Except.ok
        { status := JobStatus.processing, progress := pctOf (elapsedAt c t),
          message := processingMsgReturned, clips := none })
  | [], _, _, _, _, _ => rfl
  | t :: ts, st, doc, hdoc, hc, hall => by
      have helq : elapsedOf doc t = elapsedAt c t := by
        show elapsedAt doc.created_ts t = elapsedAt c t
        rw [hc]
      have hel : elapsedOf doc t < PROCESS_SECONDS := by
        rw [helq]
        exact hall t (List.mem_cons_self t ts)
      have heq := status_processing st jid t doc hdoc hel
      have hfirst : (status st jid t).1 = Except.ok
          { status := JobStatus.processing, progress := pctOf (elapsedAt c t),
            message := processingMsgReturned, clips := none } := by
        rw [heq, ← helq]
      have hdoc1 : get_job ((status st jid t).2) jid
          = some (processingMerge (pctOf (elapsedOf doc t)) doc) := by
        rw [show (status st jid t).2 =
            update_job st jid (processingMerge (pctOf (elapsedOf doc t))) from
          by rw [heq]]
        exact get_job_update_self st jid _ doc hdoc
      have ih := pollSeq_processing jid c ts ((status st jid t).2)
        (processingMerge (pctOf (elapsedOf doc t)) doc) hdoc1 hc
        (fun t2 ht2 => hall t2 (List.mem_cons_of_mem t ht2))
      show ((status st jid t).1 :: (pollSeq (status st jid t).2 jid ts).1) = _
      rw [hfirst, ih, List.map_cons]

/-- C3 counterexample: polling the demo job at elapsed 9.5 seconds
(strictly inside the window) answers progress 95, which is not in the
claimed range `[10, 95)`. -/
theorem claim_C3_counterexample :
    (∃ st2, status demoStore "j1" (19/2) =
      (Except.ok { status := JobStatus.processing, progress := 95,
                   message := processingMsgReturned, clips := none }, st2)) ∧
    ¬ ((95 : ℤ) < 95) := by
  constructor
  · have hev : elapsedOf demoDoc (19/2) = 19/2 - 0 :=
      elapsedOf_eval demoDoc 0 (19/2) rfl (by norm_num)
    have hel : elapsedOf demoDoc (19/2) < PROCESS_SECONDS := by
      rw [hev]
      norm_num [PROCESS_SECONDS]
    have heq := status_processing demoStore "j1" (19/2) demoDoc (by decide) hel
    have hp : pctOf (elapsedOf demoDoc (19/2)) = 95 := by
      rw [hev, pctOf_eq_of_lt _ (by norm_num [PROCESS_SECONDS])]
      rw [show (9:ℚ) * (19/2 - 0) = 171/2 from by norm_num]
      rw [show ⌊(171/2:ℚ)⌋ = 85 from by norm_num [Int.floor_eq_iff]]
      norm_num
    rw [hp] at heq
    exact ⟨_, heq⟩
  · norm_num

/-- C3 (amended): over any chronological sequence of polls on the same
job, all inside the 10-second window, every response is the processing
response whose progress is `pctOf (elapsedAt created_ts t)`; these
progress values are non-decreasing along the sequence and each lies in
`[10, 100)` — not `[10, 95)` as claimed: values 95 to 99 occur once
elapsed reaches 85/9 seconds (see the counterexample). -/
theorem claim_C3_progress_monotone (st : Store) (jid : String) (doc : JobRec)
    (ts : List ℚ) (hdoc : get_job st jid = some doc)
    (hchain : ts.Chain' (fun a b => a ≤ b))
    (hall : ∀ t ∈ ts, elapsedOf doc t < PROCESS_SECONDS) :
    (pollSeq st jid ts).1 = ts.map (fun t => Except.ok
        { status := JobStatus.processing,
          progress := pctOf (elapsedAt doc.created_ts t),
          message := processingMsgReturned, clips := none }) ∧
    (ts.map (fun t => pctOf (elapsedAt doc.created_ts t))).Chain' (fun a b => a ≤ b) ∧
    ∀ t ∈ ts, 10 ≤ pctOf (elapsedAt doc.created_ts t) ∧
      pctOf (elapsedAt doc.created_ts t) < 100 := by
  refine ⟨pollSeq_processing jid doc.created_ts ts st doc hdoc rfl
      (fun t ht => hall t ht), ?_, ?_⟩
  · rw [List.chain'_map]
    exact hchain.imp (fun a b hab => pctOf_mono (elapsedAt_mono doc.created_ts hab))
  · intro t ht
    exact ⟨pctOf_lower _ (elapsedAt_nonneg doc.created_ts t),
      pctOf_upper _ (hall t ht)⟩

/-- C3 witness: the demo job polled at clocks 2 and 5. -/
theorem claim_C3_progress_monotone_witness :
    ((pollSeq demoStore "j1" [2, 5]).1 = [2, 5].map (fun t => Except.ok
        { status := JobStatus.processing,
          progress := pctOf (elapsedAt demoDoc.created_ts t),
          message := processingMsgReturned, clips := none }) ∧
    ([2, 5].map (fun t => pctOf (elapsedAt demoDoc.created_ts t))).Chain'
      (fun a b => a ≤ b) ∧
    ∀ t ∈ ([2, 5] : List ℚ), 10 ≤ pctOf (elapsedAt demoDoc.created_ts t) ∧
      pctOf (elapsedAt demoDoc.created_ts t) < 100) :=
  claim_C3_progress_monotone demoStore "j1" demoDoc [2, 5] (by decide)
    (by norm_num [List.chain'_cons, List.chain'_singleton])
    (by
      intro t ht
      rcases List.mem_cons.mp ht with rfl | ht2
      · rw [elapsedOf_eval demoDoc 0 2 rfl (by norm_num)]
        norm_num [PROCESS_SECONDS]
      · rcases List.mem_cons.mp ht2 with rfl | ht3
        · rw [elapsedOf_eval demoDoc 0 5 rfl (by norm_num)]
          norm_num [PROCESS_SECONDS]
        · exact absurd ht3 (List.not_mem_nil t))

/-- C4 witness: the amended field-shape statement at clock 3 on the demo
job, with both hypotheses discharged concretely. -/
theorem claim_C4_response_fields_witness :
    (elapsedOf demoDoc 3 < PROCESS_SECONDS →
      ∃ r st2, status demoStore "j1" 3 = (Except.ok r, st2) ∧ r.clips = none) ∧
    (¬ elapsedOf demoDoc 3 < PROCESS_SECONDS →
      ∃ r st2 l, status demoStore "j1" 3 = (Except.ok r, st2) ∧
        r.clips = some l ∧ l ≠ []) :=
  claim_C4_response_fields demoStore "j1" 3 demoDoc (by decide) (Or.inl (by decide))
